import Mathlib

/-!
# Verification of the exam-document organizer (src/index.tsx)

Shallow embedding of the data model, filter engine, persistence layer and
topic/row operations of the single-page exam manager, together with proofs
of the specified properties.

Conventions of the embedding:
* JS strings are Lean `String`s; `text.substring(0, n)` is modelled as taking
  the first `n` characters of the character list.
* Timestamps (`Date.now()`) are `Nat` parameters; the concrete clock value is
  irrelevant to every property proved here.
* The IndexedDB blob store is an association list from file ids to contents;
  `put` overwrites, `delete` removes every entry with the key.
* `localStorage` holds at most one value under the fixed key; a stored value
  is either `malformed` (JSON.parse throws on it) or `wellFormed shelves`
  (it parses to that shelf list).  A quota-exceeded `setItem` is modelled by
  a Boolean `quotaExceeded` flag making the write raise, which the
  persistence function catches.
-/

namespace ExamManager

/-- The `type` tag of a FileMeta: the string union `'question' | 'answer'`. -/
inductive FileType where
  | question : FileType
  | answer : FileType
deriving DecidableEq, Repr

/-- `FileMeta` from src/index.tsx: id, name, type, timestamp, optional content
(content is optional in state, stored in IndexedDB). -/
structure FileMeta where
  id : String
  name : String
  type : FileType
  timestamp : Nat
  content : Option String
deriving DecidableEq, Repr

/-- `FileRow` from src/index.tsx: a pair of nullable file slots plus a
completion flag and a numeric order key. -/
structure FileRow where
  id : String
  questionFile : Option FileMeta
  answerFile : Option FileMeta
  isCompleted : Bool
  order : Nat
deriving DecidableEq, Repr

/-- `Topic` from src/index.tsx. -/
structure Topic where
  id : String
  name : String
  order : Nat
  isCollapsed : Bool
  files : List FileRow
  createdAt : Nat
deriving DecidableEq, Repr

/-- `Shelf` from src/index.tsx. -/
structure Shelf where
  id : String
  name : String
  color : String
  createdAt : Nat
  topics : List Topic
deriving DecidableEq, Repr

/-- The `'all' | 'completed' | 'incomplete'` filter union (used both for the
topic filter and the file filter). -/
inductive StatusFilter where
  | all : StatusFilter
  | completed : StatusFilter
  | incomplete : StatusFilter
deriving DecidableEq, Repr

/-- The `'all' | 'has' | 'no'` answer filter union. -/
inductive AnswerFilter where
  | all : AnswerFilter
  | has : AnswerFilter
  | no : AnswerFilter
deriving DecidableEq, Repr

/-- `hay.toLowerCase().includes(needle.toLowerCase())`: case-insensitive
substring containment, as used throughout the filter logic (lower-casing is
modelled character-wise over the string's character list). -/
def includesCI (hay needle : String) : Bool :=
  decide ((needle.data.map Char.toLower) <:+: (hay.data.map Char.toLower))

/-- The search clause of the row filter (src/index.tsx lines 450-453):
`f.questionFile?.name...includes(search) || f.answerFile?.name...includes(search)`.
A missing slot contributes `false` (optional chaining yields `undefined`). -/
def rowMatchesSearch (search : String) (f : FileRow) : Bool :=
  (match f.questionFile with
   | some q => includesCI q.name search
   | none => false) ||
  (match f.answerFile with
   | some a => includesCI a.name search
   | none => false)

/-- The file-status clause (src/index.tsx lines 456-459). -/
def matchFileStatus (filterFile : StatusFilter) (f : FileRow) : Bool :=
  match filterFile with
  | .all => true
  | .completed => f.isCompleted
  | .incomplete => !f.isCompleted

/-- The answer-status clause (src/index.tsx lines 462-465): `!!f.answerFile`
is presence of the answer slot. -/
def matchAnswerStatus (filterAnswer : AnswerFilter) (f : FileRow) : Bool :=
  match filterAnswer with
  | .all => true
  | .has => f.answerFile.isSome
  | .no => !f.answerFile.isSome

/-- Derived topic completion (src/index.tsx lines 471-473):
`total > 0 && total === completed` over the FULL file list. -/
def isTopicCompleted (topic : Topic) : Bool :=
  let total := topic.files.length
  let completed := (topic.files.filter (fun f => f.isCompleted)).length
  decide (total > 0) && (total == completed)

/-- The topic-status clause (src/index.tsx lines 475-478). -/
def matchTopicStatus (filterTopic : StatusFilter) (topic : Topic) : Bool :=
  match filterTopic with
  | .all => true
  | .completed => isTopicCompleted topic
  | .incomplete => !isTopicCompleted topic

/-- The record produced per topic by `processedTopics`:
`{ ...topic, visibleFiles, shouldShow }`. -/
structure ProcessedTopic where
  topic : Topic
  visibleFiles : List FileRow
  shouldShow : Bool
deriving DecidableEq, Repr

/-- The per-topic body of the `processedTopics` memo (src/index.tsx lines
446-509), for one topic and the four filter inputs.  `search ? e : true`
tests string truthiness, i.e. non-emptiness. -/
def processTopic (search : String) (filterTopic filterFile : StatusFilter)
    (filterAnswer : AnswerFilter) (topic : Topic) : ProcessedTopic :=
  let visibleFiles := topic.files.filter (fun f =>
    let matchSearch := if search ≠ "" then rowMatchesSearch search f else true
    matchSearch && matchFileStatus filterFile f && matchAnswerStatus filterAnswer f)
  let matchTopicName := if search ≠ "" then includesCI topic.name search else false
  let shouldShow :=
    if matchTopicStatus filterTopic topic then
      if search ≠ "" then
        matchTopicName || decide (visibleFiles.length > 0)
      else if filterFile ≠ .all ∨ filterAnswer ≠ .all then
        decide (visibleFiles.length > 0)
      else
        true
    else false
  let finalVisibleFiles :=
    if matchTopicName then
      topic.files.filter (fun f =>
        matchFileStatus filterFile f && matchAnswerStatus filterAnswer f)
    else visibleFiles
  { topic := topic, visibleFiles := finalVisibleFiles, shouldShow := shouldShow }

/-- `processedTopics` (src/index.tsx lines 445-511): map every topic through
the per-topic computation, keep those with `shouldShow`. -/
def processedTopics (topics : List Topic) (search : String)
    (filterTopic filterFile : StatusFilter) (filterAnswer : AnswerFilter) :
    List ProcessedTopic :=
  (topics.map (processTopic search filterTopic filterFile filterAnswer)).filter
    (fun t => t.shouldShow)

/-! ## IndexedDB blob store (src/index.tsx lines 24-91)

The object store maps file ids to stored content.  It is modelled as an
association list; `put` overwrites any existing entry for the key, `delete`
removes every entry with the key, `get` returns the entry if present. -/

/-- The IndexedDB object store: id ↦ content. -/
abbrev BlobStore := List (String × String)

/-- `saveFileContent(id, content)`: `store.put(content, id)` (upsert). -/
def saveFileContent (store : BlobStore) (id content : String) : BlobStore :=
  store.filter (fun kv => kv.1 ≠ id) ++ [(id, content)]

/-- `getFileContent(id)`: `store.get(id)`. -/
def getFileContent (store : BlobStore) (id : String) : Option String :=
  (store.find? (fun kv => kv.1 == id)).map (fun kv => kv.2)

/-- `deleteFileContent(id)`: `store.delete(id)`. -/
def deleteFileContent (store : BlobStore) (id : String) : BlobStore :=
  store.filter (fun kv => kv.1 ≠ id)

/-- `FileRowItem.handleDelete` (src/index.tsx lines 745-750), blob-store part:
delete the content of both slots (if present) before removing the row. -/
def handleDeleteRowBlobs (store : BlobStore) (row : FileRow) : BlobStore :=
  let s1 := match row.questionFile with
    | some q => deleteFileContent store q.id
    | none => store
  match row.answerFile with
  | some a => deleteFileContent s1 a.id
  | none => s1

/-- `FileRowItem.handleRemoveFile` (src/index.tsx lines 752-760): clearing a
file slot deletes its stored content and nulls the slot. -/
def handleRemoveFile (store : BlobStore) (row : FileRow) (t : FileType) :
    BlobStore × FileRow :=
  match t with
  | .question =>
    match row.questionFile with
    | some q => (deleteFileContent store q.id, { row with questionFile := none })
    | none => (store, row)
  | .answer =>
    match row.answerFile with
    | some a => (deleteFileContent store a.id, { row with answerFile := none })
    | none => (store, row)

/-- `deleteTopic` (src/index.tsx lines 421-432), blob-store part: walk the
topic's rows and delete both slots' contents. -/
def deleteTopicBlobs (store : BlobStore) (topic : Topic) : BlobStore :=
  topic.files.foldl handleDeleteRowBlobs store

/-- `deleteShelf` (src/index.tsx lines 212-230), blob-store part: walk all
topics and rows of the shelf and delete both slots' contents. -/
def deleteShelfBlobs (store : BlobStore) (shelf : Shelf) : BlobStore :=
  shelf.topics.foldl deleteTopicBlobs store

/-- `deleteShelf`, structural part: `shelves.filter(s => s.id !== id)`. -/
def deleteShelfFromList (shelves : List Shelf) (id : String) : List Shelf :=
  shelves.filter (fun s => s.id ≠ id)

/-! ## localStorage persistence (src/index.tsx lines 128-192) -/

/-- A value held under the fixed `localStorage` key: either a string that
`JSON.parse` rejects, or one that parses to a shelf list. -/
inductive StoredData where
  | malformed : StoredData
  | wellFormed : List Shelf → StoredData
deriving DecidableEq, Repr

/-- The `localStorage` slot for `exam-manager-data-v1` (`none` = key absent;
the empty string, which is falsy in JS and also unparsable, is `malformed`). -/
structure StorageState where
  stored : Option StoredData
deriving DecidableEq, Repr

/-- `DEFAULT_SHELF` (src/index.tsx lines 134-140); `createdAt` is the module
load time, modelled as 0 (no property here depends on it). -/
def DEFAULT_SHELF : Shelf :=
  { id := "shelf-default", name := "Đề Thi 2024", color := "bg-blue-600",
    createdAt := 0, topics := [] }

/-- Content stripping applied by `saveToStorage` before writing
(src/index.tsx lines 148-158): `content: undefined` on both slots. -/
def stripFileMeta (m : FileMeta) : FileMeta :=
  { m with content := none }

/-- Row part of the content stripping. -/
def stripRow (f : FileRow) : FileRow :=
  { f with questionFile := f.questionFile.map stripFileMeta,
           answerFile := f.answerFile.map stripFileMeta }

/-- Topic part of the content stripping. -/
def stripTopic (t : Topic) : Topic :=
  { t with files := t.files.map stripRow }

/-- `cleanData` computed by `saveToStorage`. -/
def cleanData (data : List Shelf) : List Shelf :=
  data.map (fun shelf => { shelf with topics := shelf.topics.map stripTopic })

/-- `localStorage.setItem(STORAGE_KEY, ...)`: replaces the stored value, or
raises when the quota is exceeded (modelled by the flag). -/
def setItem (quotaExceeded : Bool) (v : StoredData) : Except String StorageState :=
  if quotaExceeded then Except.error "QuotaExceededError"
  else Except.ok { stored := some v }

/-- `saveToStorage` (src/index.tsx lines 145-164): strip content, write; a
throwing write is caught inside the function — the old storage state is kept
and a user-facing warning (`alert`) is issued, reported here as the Boolean
second component.  The function is total: no exception escapes. -/
def saveToStorage (quotaExceeded : Bool) (data : List Shelf)
    (st : StorageState) : StorageState × Bool :=
  match setItem quotaExceeded (StoredData.wellFormed (cleanData data)) with
  | Except.ok st2 => (st2, false)
  | Except.error _ => (st, true)

/-- `loadFromStorage` (src/index.tsx lines 166-173):
`data ? JSON.parse(data) : [DEFAULT_SHELF]` with the parse failure caught and
also answered by `[DEFAULT_SHELF]`. -/
def loadFromStorage (st : StorageState) : List Shelf :=
  match st.stored with
  | none => [DEFAULT_SHELF]
  | some StoredData.malformed => [DEFAULT_SHELF]
  | some (StoredData.wellFormed shelves) => shelves

/-- The save-on-change effect of `App` (src/index.tsx lines 190-192):
`if (shelves.length > 0) saveToStorage(shelves)`.  Returns the (untouched)
in-memory shelves, the storage state after the effect, and whether the
quota warning was raised. -/
def appSaveEffect (quotaExceeded : Bool) (shelves : List Shelf)
    (st : StorageState) : List Shelf × StorageState × Bool :=
  if shelves.length > 0 then
    let r := saveToStorage quotaExceeded shelves st
    (shelves, r.1, r.2)
  else (shelves, st, false)

/-! ## Topic reordering (src/index.tsx lines 434-442) -/

/-- The `'up' | 'down'` argument of `moveTopic`. -/
inductive MoveDirection where
  | up : MoveDirection
  | down : MoveDirection
deriving DecidableEq, Repr

/-- The destructuring swap `[a[i], a[j]] = [a[j], a[i]]` on a copied array,
for two in-range indices (out-of-range reads leave the list unchanged; the
callers below only swap in-range neighbours). -/
def listSwap {α : Type} (l : List α) (i j : Nat) : List α :=
  match l[i]?, l[j]? with
  | some a, some b => (l.set i b).set j a
  | _, _ => l

/-- `moveTopic` (src/index.tsx lines 434-442) on the topic list: swap with
the neighbour in the requested direction, guarded exactly as in the source
(`index > 0` for up, `index < length - 1` for down), else leave unchanged. -/
def moveTopic (topics : List Topic) (index : Nat) (direction : MoveDirection) :
    List Topic :=
  if direction = MoveDirection.up ∧ index > 0 then
    listSwap topics index (index - 1)
  else if direction = MoveDirection.down ∧ index < topics.length - 1 then
    listSwap topics index (index + 1)
  else topics

/-! ## Paste-as-row and file ingestion (src/index.tsx lines 856-940) -/

/-- `TopicItem.handlePaste`, plain-text branch (src/index.tsx lines 923-939):
for truthy (non-empty) pasted text, append one new row whose question name is
`text.substring(0, 50) + (text.length > 50 ? '...' : '')`; nothing is written
to the blob store.  Fresh ids and the clock are parameters. -/
def handlePasteText (store : BlobStore) (topic : Topic)
    (rowId fileId : String) (now : Nat) (text : String) : BlobStore × Topic :=
  if text ≠ "" then
    let newRow : FileRow :=
      { id := rowId,
        questionFile := some
          { id := fileId,
            name := String.mk (text.data.take 50) ++
              (if text.length > 50 then "..." else ""),
            type := FileType.question,
            timestamp := now,
            content := none },
        answerFile := none,
        isCompleted := false,
        order := now }
    (store, { topic with files := topic.files ++ [newRow] })
  else (store, topic)

/-- One row produced by `TopicItem.processFiles` for one ingested file
(src/index.tsx lines 867-879): question slot populated, answer slot empty,
not completed. -/
def ingestRow (rowId fileId fileName : String) (now : Nat) : FileRow :=
  { id := rowId,
    questionFile := some
      { id := fileId, name := fileName, type := FileType.question,
        timestamp := now, content := none },
    answerFile := none,
    isCompleted := false,
    order := now }

/-- The completion handler of `TopicItem.processFiles` (src/index.tsx lines
884-886): `onUpdate({ files: [...topic.files, ...newFileRows] })`.  The
`topic.files` it reads is the value of the `topic` prop captured by the
closure when `processFiles` was invoked — i.e. the row list as it was BEFORE
the asynchronous file reads — not the document state current at completion
time. -/
def processFilesMerge (snapshotFiles newFileRows : List FileRow) :
    List FileRow :=
  snapshotFiles ++ newFileRows

/-! ## Concrete sample data (used in scenario conjuncts and witnesses) -/

/-- Question file metadata of the first sample row. -/
def sampleQuestionMeta1 : FileMeta :=
  { id := "file-q1", name := "q1.pdf", type := FileType.question,
    timestamp := 0, content := none }

/-- Answer file metadata of the first sample row. -/
def sampleAnswerMeta1 : FileMeta :=
  { id := "file-a1", name := "ans1.pdf", type := FileType.answer,
    timestamp := 0, content := none }

/-- Question file metadata of the second sample row. -/
def sampleQuestionMeta2 : FileMeta :=
  { id := "file-q2", name := "q2.pdf", type := FileType.question,
    timestamp := 0, content := none }

/-- Sample row R1: completed, with an answer file. -/
def sampleRow1 : FileRow :=
  { id := "row-1", questionFile := some sampleQuestionMeta1,
    answerFile := some sampleAnswerMeta1, isCompleted := true, order := 0 }

/-- Sample row R2: not completed, no answer file. -/
def sampleRow2 : FileRow :=
  { id := "row-2", questionFile := some sampleQuestionMeta2,
    answerFile := none, isCompleted := false, order := 1 }

/-- Sample topic "Algebra" holding R1 and R2. -/
def sampleTopic : Topic :=
  { id := "topic-1", name := "Algebra", order := 0, isCollapsed := false,
    files := [sampleRow1, sampleRow2], createdAt := 0 }

/-- A topic with no file rows. -/
def emptyTopic : Topic :=
  { id := "topic-2", name := "Geometry", order := 1, isCollapsed := false,
    files := [], createdAt := 0 }

/-- A sample shelf holding the sample topic. -/
def sampleShelf : Shelf :=
  { id := "shelf-1", name := "S1", color := "bg-blue-600", createdAt := 0,
    topics := [sampleTopic] }

/-- A blob store holding content for the sample rows' file ids. -/
def sampleStore : BlobStore :=
  [("file-q1", "data:q1"), ("file-a1", "data:a1"), ("file-q2", "data:q2")]

/-! ## Helper lemmas -/

/-- A list's length equals its filtered length iff every element passes. -/
theorem length_eq_length_filter_iff {α : Type} (p : α → Bool) (l : List α) :
    l.length = (l.filter p).length ↔ ∀ a ∈ l, p a = true := by
  constructor
  · intro h
    have heq : l.filter p = l := (List.filter_sublist l).eq_of_length h.symm
    exact List.filter_eq_self.mp heq
  · intro h
    rw [List.filter_eq_self.mpr h]

/-! ## C3: derived topic completion -/

/-- C3: a topic's derived completed status holds iff the topic has at least
one row and every row is completed; a topic with zero rows is never
complete; and the status that gates topic visibility is `matchTopicStatus`
evaluated on the full topic (its full row list), independent of the active
search text and row filters. -/
theorem c3_topicCompleted_characterization (topic : Topic) :
    (isTopicCompleted topic = true ↔
      topic.files ≠ [] ∧ ∀ f ∈ topic.files, f.isCompleted = true) ∧
    (topic.files = [] → isTopicCompleted topic = false) ∧
    (∀ (search : String) (fT fF : StatusFilter) (fA : AnswerFilter),
      (processTopic search fT fF fA topic).shouldShow = true →
      matchTopicStatus fT topic = true) := by
  refine ⟨?_, ?_, ?_⟩
  · unfold isTopicCompleted
    simp only [decide_eq_true_eq, Bool.and_eq_true, beq_iff_eq, gt_iff_lt,
      List.length_pos]
    rw [length_eq_length_filter_iff]
  · intro h
    simp [isTopicCompleted, h]
  · intro search fT fF fA h
    cases hm : matchTopicStatus fT topic with
    | true => rfl
    | false => simp [processTopic, hm] at h

/-- Witness for C3 at a concrete zero-row topic. -/
theorem c3_witness : isTopicCompleted emptyTopic = false :=
  (c3_topicCompleted_characterization emptyTopic).2.1 rfl

/-! ## C5: quota-exceeded structural write -/

/-- C5: the save effect never modifies the in-memory shelf list, and when the
structural write raises (quota exceeded) the failure is absorbed inside
`saveToStorage`: the storage state is unchanged and the user warning flag is
raised.  Totality of `appSaveEffect` is the embedding of "never propagated
uncaught". -/
theorem c5_save_failure_contained (shelves : List Shelf) (st : StorageState) :
    (∀ quotaExceeded,
      (appSaveEffect quotaExceeded shelves st).1 = shelves) ∧
    (shelves.length > 0 →
      appSaveEffect true shelves st = (shelves, st, true)) := by
  constructor
  · intro quotaExceeded
    unfold appSaveEffect
    split <;> rfl
  · intro h
    simp [appSaveEffect, h, saveToStorage, setItem]

/-- Witness for C5 at a concrete non-empty document. -/
theorem c5_witness :
    appSaveEffect true [DEFAULT_SHELF] { stored := none } =
      ([DEFAULT_SHELF], { stored := none }, true) :=
  (c5_save_failure_contained [DEFAULT_SHELF] { stored := none }).2 (by decide)

/-! ## C6: boot-time structural load -/

/-- C6: `loadFromStorage` returns the parsed stored value when one parses;
on an absent key or a parse failure it returns exactly the one seeded
default shelf.  Being a total function, it never throws. -/
theorem c6_load_fallback (st : StorageState) :
    (st.stored = none → loadFromStorage st = [DEFAULT_SHELF]) ∧
    (st.stored = some StoredData.malformed →
      loadFromStorage st = [DEFAULT_SHELF]) ∧
    (∀ shelves, st.stored = some (StoredData.wellFormed shelves) →
      loadFromStorage st = shelves) ∧
    [DEFAULT_SHELF].length = 1 := by
  refine ⟨?_, ?_, ?_, rfl⟩
  · intro h
    simp [loadFromStorage, h]
  · intro h
    simp [loadFromStorage, h]
  · intro shelves h
    simp [loadFromStorage, h]

/-- Witness for C6 at an absent storage key. -/
theorem c6_witness : loadFromStorage { stored := none } = [DEFAULT_SHELF] :=
  (c6_load_fallback { stored := none }).1 rfl

/-! ## C10: empty shelf list at the persistence boundary -/

/-- C10: a stored value parsing to the empty array is returned as-is at boot
(no default seeded); the save-on-change effect does not write when the
in-memory list is empty; hence deleting the last remaining shelf leaves the
previously stored shelves in storage, and they are what the next boot
loads. -/
theorem c10_empty_document_asymmetry :
    loadFromStorage { stored := some (StoredData.wellFormed []) } = [] ∧
    (∀ quotaExceeded st, appSaveEffect quotaExceeded [] st = ([], st, false)) ∧
    (∀ quotaExceeded (s : Shelf) (st : StorageState) (prev : List Shelf),
      st.stored = some (StoredData.wellFormed prev) →
      deleteShelfFromList [s] s.id = [] ∧
      loadFromStorage
        ((appSaveEffect quotaExceeded (deleteShelfFromList [s] s.id) st).2.1) =
        prev) := by
  refine ⟨rfl, ?_, ?_⟩
  · intro quotaExceeded st
    simp [appSaveEffect]
  · intro quotaExceeded s st prev h
    have hdel : deleteShelfFromList [s] s.id = [] := by
      simp [deleteShelfFromList]
    refine ⟨hdel, ?_⟩
    rw [hdel]
    simp [appSaveEffect, loadFromStorage, h]

/-- Witness for C10: delete the only shelf, observe the old stored list
survive to the next load. -/
theorem c10_witness :
    loadFromStorage
      ((appSaveEffect false (deleteShelfFromList [DEFAULT_SHELF] DEFAULT_SHELF.id)
        { stored := some (StoredData.wellFormed [sampleShelf]) }).2.1) =
      [sampleShelf] :=
  ((c10_empty_document_asymmetry).2.2 false DEFAULT_SHELF
    { stored := some (StoredData.wellFormed [sampleShelf]) } [sampleShelf] rfl).2

/-! ## C8: paste-as-row for plain text -/

/-- C8: pasting non-empty plain text appends exactly one new row, with the
question name being the text truncated to 50 characters (ellipsis appended
exactly when longer than 50; text of length at most 50 is kept verbatim),
an empty answer slot, `isCompleted = false`, no stored content on the meta,
and the blob store untouched. -/
theorem c8_paste_text_row (store : BlobStore) (topic : Topic)
    (rowId fileId : String) (now : Nat) (text : String) (h : text ≠ "") :
    (handlePasteText store topic rowId fileId now text).1 = store ∧
    (handlePasteText store topic rowId fileId now text).2.files =
      topic.files ++
        [{ id := rowId,
           questionFile := some
             { id := fileId,
               name := String.mk (text.data.take 50) ++
                 (if text.length > 50 then "..." else ""),
               type := FileType.question, timestamp := now, content := none },
           answerFile := none, isCompleted := false, order := now }] ∧
    (text.length ≤ 50 →
      String.mk (text.data.take 50) ++
        (if text.length > 50 then "..." else "") = text) := by
  refine ⟨?_, ?_, ?_⟩
  · simp [handlePasteText, h]
  · simp [handlePasteText, h]
  · intro h50
    have hnot : ¬ text.length > 50 := Nat.not_lt.mpr h50
    have hdata : text.data.length ≤ 50 := h50
    rw [if_neg hnot, List.take_of_length_le hdata]
    cases text
    exact String.append_empty _

/-- Witness for C8: paste the five-character text "hello". -/
theorem c8_witness :
    (handlePasteText [] sampleTopic "row-p" "file-p" 5 "hello").1 = [] ∧
    String.mk (("hello" : String).data.take 50) ++
      (if ("hello" : String).length > 50 then "..." else "") = "hello" :=
  ⟨(c8_paste_text_row [] sampleTopic "row-p" "file-p" 5 "hello" (by decide)).1,
   (c8_paste_text_row [] sampleTopic "row-p" "file-p" 5 "hello"
     (by decide)).2.2 (by decide)⟩

/-! ## C9: concurrent file ingestion uses a stale snapshot

In `TopicItem.processFiles` the completion handler reads `topic.files` from
the closure created when the ingestion was submitted.  Two ingestions
submitted while the topic has no rows therefore both merge into the empty
snapshot: whichever completes second replaces the rows added by the first.
Below, ingestion A (file a.pdf) completes first, making the row list
`[rowA]`; ingestion B (file b.pdf) then completes and produces
`snapshot ++ [rowB] = [rowB]`, losing `rowA`. -/

/-- C9 evaluated at a failing interleaving: the second completion's output
does not contain the row added by the first completion, because the merge
uses the pre-wait snapshot rather than the latest document state. -/
theorem c9_stale_snapshot_clobbers :
    processFilesMerge ([] : List FileRow) [ingestRow "row-a" "file-fa" "a.pdf" 1] =
      [ingestRow "row-a" "file-fa" "a.pdf" 1] ∧
    processFilesMerge ([] : List FileRow) [ingestRow "row-b" "file-fb" "b.pdf" 2] =
      [ingestRow "row-b" "file-fb" "b.pdf" 2] ∧
    ingestRow "row-a" "file-fa" "a.pdf" 1 ∉
      processFilesMerge ([] : List FileRow) [ingestRow "row-b" "file-fb" "b.pdf" 2] := by
  refine ⟨rfl, rfl, ?_⟩
  decide

/-! ## C1: a topic-name match bypasses only the row text match -/

/-- C1: when the search is non-empty and the topic name contains it
(case-insensitively), the topic's visible row set is exactly the rows
passing the row-completion filter AND the answer-presence filter — the
row-level text match is bypassed, the status filters never are.  In
particular, with row filter `completed` and answer filter `all` the visible
rows are exactly the completed rows. -/
theorem c1_name_match_bypasses_text_only (topic : Topic) (search : String)
    (fT : StatusFilter) (hs : search ≠ "")
    (hname : includesCI topic.name search = true) :
    (∀ (fF : StatusFilter) (fA : AnswerFilter),
      (processTopic search fT fF fA topic).visibleFiles =
        topic.files.filter (fun f =>
          matchFileStatus fF f && matchAnswerStatus fA f)) ∧
    (processTopic search fT StatusFilter.completed AnswerFilter.all
      topic).visibleFiles =
      topic.files.filter (fun f => f.isCompleted) := by
  have hgen : ∀ (fF : StatusFilter) (fA : AnswerFilter),
      (processTopic search fT fF fA topic).visibleFiles =
        topic.files.filter (fun f =>
          matchFileStatus fF f && matchAnswerStatus fA f) := by
    intro fF fA
    simp [processTopic, hs, hname]
  refine ⟨hgen, ?_⟩
  rw [hgen]
  simp [matchFileStatus, matchAnswerStatus]

/-- Witness for C1: topic "Algebra", search "algebra", row filter
`completed`, answer filter `all` — only the completed row R1 is visible. -/
theorem c1_witness :
    (processTopic "algebra" StatusFilter.all StatusFilter.completed
      AnswerFilter.all sampleTopic).visibleFiles =
      sampleTopic.files.filter (fun f => f.isCompleted) :=
  (c1_name_match_bypasses_text_only sampleTopic "algebra" StatusFilter.all
    (by decide) (by decide)).2

/-! ## C2: topic visibility rule -/

/-- C2: a topic is shown iff the topic-completion filter matches its derived
status, and — with empty search — the row filters are both inactive or the
visible row set is non-empty, while — with non-empty search — the topic name
matches or the visible row set is non-empty.  For the concrete topic with
R1 (completed, has answer) and R2 (incomplete, no answer), row filter
`completed` plus answer filter `no` empties the visible set and hides the
topic. -/
theorem c2_topic_visibility (topic : Topic) (search : String)
    (fT fF : StatusFilter) (fA : AnswerFilter) :
    ((processTopic search fT fF fA topic).shouldShow = true ↔
      (matchTopicStatus fT topic = true ∧
        (if search = "" then
          (fF = StatusFilter.all ∧ fA = AnswerFilter.all) ∨
            (processTopic search fT fF fA topic).visibleFiles ≠ []
         else
          includesCI topic.name search = true ∨
            (processTopic search fT fF fA topic).visibleFiles ≠ []))) ∧
    (processTopic "" StatusFilter.all StatusFilter.completed AnswerFilter.no
      sampleTopic).shouldShow = false ∧
    (processTopic "" StatusFilter.all StatusFilter.completed AnswerFilter.no
      sampleTopic).visibleFiles = [] := by
  refine ⟨?_, by decide, by decide⟩
  by_cases hs : search = ""
  · subst hs
    cases hmts : matchTopicStatus fT topic with
    | false => simp [processTopic, hmts]
    | true =>
      cases fF <;> cases fA <;>
        simp [processTopic, hmts, List.length_pos, matchFileStatus,
          matchAnswerStatus]
  · cases hmts : matchTopicStatus fT topic with
    | false => simp [processTopic, hmts, hs]
    | true =>
      cases hname : includesCI topic.name search with
      | true => simp [processTopic, hmts, hname, hs]
      | false => simp [processTopic, hmts, hname, hs, List.length_pos]

/-! ## C4: deletion releases blob content -/

/-- Deleting a key removes it from the store. -/
theorem getFileContent_delete_self (s : BlobStore) (id : String) :
    getFileContent (deleteFileContent s id) id = none := by
  unfold getFileContent deleteFileContent
  simp only [Option.map_eq_none']
  rw [List.find?_eq_none]
  intro kv hkv
  have hm := List.mem_filter.mp hkv
  simp only [decide_eq_true_eq] at hm
  simpa [beq_iff_eq] using hm.2

/-- Deleting any key never makes an absent key present. -/
theorem getFileContent_delete_none (s : BlobStore) (i k : String)
    (h : getFileContent s k = none) :
    getFileContent (deleteFileContent s i) k = none := by
  unfold getFileContent deleteFileContent at *
  simp only [Option.map_eq_none'] at *
  rw [List.find?_eq_none] at *
  intro kv hkv
  exact h kv (List.mem_filter.mp hkv).1

/-- Row deletion never makes an absent key present. -/
theorem handleDeleteRowBlobs_none (s : BlobStore) (row : FileRow) (k : String)
    (h : getFileContent s k = none) :
    getFileContent (handleDeleteRowBlobs s row) k = none := by
  unfold handleDeleteRowBlobs
  cases row.questionFile with
  | none =>
    cases row.answerFile with
    | none => exact h
    | some a => exact getFileContent_delete_none _ _ _ h
  | some q =>
    cases row.answerFile with
    | none => exact getFileContent_delete_none _ _ _ h
    | some a =>
      exact getFileContent_delete_none _ _ _ (getFileContent_delete_none _ _ _ h)

/-- Row deletion removes the question slot's blob. -/
theorem handleDeleteRowBlobs_removes_q (s : BlobStore) (row : FileRow)
    (q : FileMeta) (hq : row.questionFile = some q) :
    getFileContent (handleDeleteRowBlobs s row) q.id = none := by
  unfold handleDeleteRowBlobs
  rw [hq]
  cases row.answerFile with
  | none => exact getFileContent_delete_self _ _
  | some a => exact getFileContent_delete_none _ _ _ (getFileContent_delete_self _ _)

/-- Row deletion removes the answer slot's blob. -/
theorem handleDeleteRowBlobs_removes_a (s : BlobStore) (row : FileRow)
    (a : FileMeta) (ha : row.answerFile = some a) :
    getFileContent (handleDeleteRowBlobs s row) a.id = none := by
  unfold handleDeleteRowBlobs
  rw [ha]
  exact getFileContent_delete_self _ _

/-- Folding row deletions never makes an absent key present. -/
theorem foldl_deleteRow_none (rows : List FileRow) (s : BlobStore) (k : String)
    (h : getFileContent s k = none) :
    getFileContent (rows.foldl handleDeleteRowBlobs s) k = none := by
  induction rows generalizing s with
  | nil => exact h
  | cons r rs ih =>
    rw [List.foldl_cons]
    exact ih _ (handleDeleteRowBlobs_none _ _ _ h)

/-- Folding row deletions over a list removes a member row's question blob. -/
theorem foldl_deleteRow_removes_q (row : FileRow) (q : FileMeta)
    (hq : row.questionFile = some q) :
    ∀ (rows : List FileRow) (s : BlobStore), row ∈ rows →
      getFileContent (rows.foldl handleDeleteRowBlobs s) q.id = none := by
  intro rows
  induction rows with
  | nil =>
    intro s hmem
    cases hmem
  | cons r rs ih =>
    intro s hmem
    rw [List.foldl_cons]
    rcases List.mem_cons.mp hmem with h1 | h2
    · subst h1
      exact foldl_deleteRow_none rs _ _ (handleDeleteRowBlobs_removes_q _ _ _ hq)
    · exact ih _ h2

/-- Folding row deletions over a list removes a member row's answer blob. -/
theorem foldl_deleteRow_removes_a (row : FileRow) (a : FileMeta)
    (ha : row.answerFile = some a) :
    ∀ (rows : List FileRow) (s : BlobStore), row ∈ rows →
      getFileContent (rows.foldl handleDeleteRowBlobs s) a.id = none := by
  intro rows
  induction rows with
  | nil =>
    intro s hmem
    cases hmem
  | cons r rs ih =>
    intro s hmem
    rw [List.foldl_cons]
    rcases List.mem_cons.mp hmem with h1 | h2
    · subst h1
      exact foldl_deleteRow_none rs _ _ (handleDeleteRowBlobs_removes_a _ _ _ ha)
    · exact ih _ h2

/-- Topic deletion never makes an absent key present. -/
theorem deleteTopicBlobs_none (t : Topic) (s : BlobStore) (k : String)
    (h : getFileContent s k = none) :
    getFileContent (deleteTopicBlobs s t) k = none :=
  foldl_deleteRow_none t.files s k h

/-- Folding topic deletions never makes an absent key present. -/
theorem foldl_deleteTopic_none (topics : List Topic) (s : BlobStore)
    (k : String) (h : getFileContent s k = none) :
    getFileContent (topics.foldl deleteTopicBlobs s) k = none := by
  induction topics generalizing s with
  | nil => exact h
  | cons t ts ih =>
    rw [List.foldl_cons]
    exact ih _ (deleteTopicBlobs_none _ _ _ h)

/-- Folding topic deletions removes the question blob of any row of any
member topic. -/
theorem foldl_deleteTopic_removes_q (topic : Topic) (row : FileRow)
    (q : FileMeta) (hr : row ∈ topic.files) (hq : row.questionFile = some q) :
    ∀ (topics : List Topic) (s : BlobStore), topic ∈ topics →
      getFileContent (topics.foldl deleteTopicBlobs s) q.id = none := by
  intro topics
  induction topics with
  | nil =>
    intro s hmem
    cases hmem
  | cons t ts ih =>
    intro s hmem
    rw [List.foldl_cons]
    rcases List.mem_cons.mp hmem with h1 | h2
    · subst h1
      exact foldl_deleteTopic_none ts _ _
        (foldl_deleteRow_removes_q row q hq topic.files s hr)
    · exact ih _ h2

/-- Folding topic deletions removes the answer blob of any row of any member
topic. -/
theorem foldl_deleteTopic_removes_a (topic : Topic) (row : FileRow)
    (a : FileMeta) (hr : row ∈ topic.files) (ha : row.answerFile = some a) :
    ∀ (topics : List Topic) (s : BlobStore), topic ∈ topics →
      getFileContent (topics.foldl deleteTopicBlobs s) a.id = none := by
  intro topics
  induction topics with
  | nil =>
    intro s hmem
    cases hmem
  | cons t ts ih =>
    intro s hmem
    rw [List.foldl_cons]
    rcases List.mem_cons.mp hmem with h1 | h2
    · subst h1
      exact foldl_deleteTopic_none ts _ _
        (foldl_deleteRow_removes_a row a ha topic.files s hr)
    · exact ih _ h2

/-- C4: every deletion path — row deletion, file-slot clearing, topic
deletion, shelf deletion — leaves the blob store with no entry keyed by the
FileMeta ids that the deleted row's (or rows') question and answer slots
held. -/
theorem c4_deletion_releases_blobs (store : BlobStore) :
    (∀ (row : FileRow) (q : FileMeta), row.questionFile = some q →
      getFileContent (handleDeleteRowBlobs store row) q.id = none) ∧
    (∀ (row : FileRow) (a : FileMeta), row.answerFile = some a →
      getFileContent (handleDeleteRowBlobs store row) a.id = none) ∧
    (∀ (topic : Topic) (row : FileRow) (q : FileMeta), row ∈ topic.files →
      row.questionFile = some q →
      getFileContent (deleteTopicBlobs store topic) q.id = none) ∧
    (∀ (topic : Topic) (row : FileRow) (a : FileMeta), row ∈ topic.files →
      row.answerFile = some a →
      getFileContent (deleteTopicBlobs store topic) a.id = none) ∧
    (∀ (shelf : Shelf) (topic : Topic) (row : FileRow) (q : FileMeta),
      topic ∈ shelf.topics → row ∈ topic.files → row.questionFile = some q →
      getFileContent (deleteShelfBlobs store shelf) q.id = none) ∧
    (∀ (shelf : Shelf) (topic : Topic) (row : FileRow) (a : FileMeta),
      topic ∈ shelf.topics → row ∈ topic.files → row.answerFile = some a →
      getFileContent (deleteShelfBlobs store shelf) a.id = none) ∧
    (∀ (row : FileRow) (q : FileMeta), row.questionFile = some q →
      getFileContent (handleRemoveFile store row FileType.question).1 q.id
        = none) ∧
    (∀ (row : FileRow) (a : FileMeta), row.answerFile = some a →
      getFileContent (handleRemoveFile store row FileType.answer).1 a.id
        = none) := by
  refine ⟨?_, ?_, ?_, ?_, ?_, ?_, ?_, ?_⟩
  · intro row q hq
    exact handleDeleteRowBlobs_removes_q _ _ _ hq
  · intro row a ha
    exact handleDeleteRowBlobs_removes_a _ _ _ ha
  · intro topic row q hr hq
    exact foldl_deleteRow_removes_q row q hq topic.files store hr
  · intro topic row a hr ha
    exact foldl_deleteRow_removes_a row a ha topic.files store hr
  · intro shelf topic row q ht hr hq
    exact foldl_deleteTopic_removes_q topic row q hr hq shelf.topics store ht
  · intro shelf topic row a ht hr ha
    exact foldl_deleteTopic_removes_a topic row a hr ha shelf.topics store ht
  · intro row q hq
    unfold handleRemoveFile
    rw [hq]
    exact getFileContent_delete_self _ _
  · intro row a ha
    unfold handleRemoveFile
    rw [ha]
    exact getFileContent_delete_self _ _

/-- Witness for C4: deleting sample row R1 removes its question blob from
the sample store. -/
theorem c4_witness :
    getFileContent (handleDeleteRowBlobs sampleStore sampleRow1)
      sampleQuestionMeta1.id = none :=
  (c4_deletion_releases_blobs sampleStore).1 sampleRow1 sampleQuestionMeta1 rfl

/-! ## C7: moveTopic -/

/-- `listSwap` commutes with `cons` at successor indices. -/
theorem listSwap_cons_succ {α : Type} (x : α) (l : List α) (i j : Nat) :
    listSwap (x :: l) (i + 1) (j + 1) = x :: listSwap l i j := by
  unfold listSwap
  cases h1 : l[i]? with
  | none =>
    cases h2 : l[j]? <;> simp [List.getElem?_cons_succ, h1, h2]
  | some a =>
    cases h2 : l[j]? <;>
      simp [List.getElem?_cons_succ, h1, h2, List.set_cons_succ]

/-- Swapping the two head positions, downward form. -/
theorem listSwap_zero_one {α : Type} (a b : α) (l : List α) :
    listSwap (a :: b :: l) 0 1 = b :: a :: l := by
  simp [listSwap, List.set]

/-- Swapping the two head positions, upward form. -/
theorem listSwap_one_zero {α : Type} (a b : α) (l : List α) :
    listSwap (a :: b :: l) 1 0 = b :: a :: l := by
  simp [listSwap, List.set]

/-- Adjacent swap at an explicit split point, downward form. -/
theorem listSwap_adj_down {α : Type} :
    ∀ (l₁ : List α) (a b : α) (l₂ : List α),
      listSwap (l₁ ++ a :: b :: l₂) l₁.length (l₁.length + 1) =
        l₁ ++ b :: a :: l₂ := by
  intro l₁
  induction l₁ with
  | nil =>
    intro a b l₂
    exact listSwap_zero_one a b l₂
  | cons x xs ih =>
    intro a b l₂
    rw [List.cons_append, List.length_cons, listSwap_cons_succ, ih,
      List.cons_append]

/-- Adjacent swap at an explicit split point, upward form. -/
theorem listSwap_adj_up {α : Type} :
    ∀ (l₁ : List α) (a b : α) (l₂ : List α),
      listSwap (l₁ ++ a :: b :: l₂) (l₁.length + 1) l₁.length =
        l₁ ++ b :: a :: l₂ := by
  intro l₁
  induction l₁ with
  | nil =>
    intro a b l₂
    exact listSwap_one_zero a b l₂
  | cons x xs ih =>
    intro a b l₂
    rw [List.cons_append, List.length_cons, listSwap_cons_succ, ih,
      List.cons_append]

/-- Any position with a successor position splits the list around two
adjacent elements. -/
theorem exists_adjacent_split {α : Type} :
    ∀ (l : List α) (k : Nat), k + 1 < l.length →
      ∃ (l₁ : List α) (a b : α) (l₂ : List α),
        l = l₁ ++ a :: b :: l₂ ∧ l₁.length = k := by
  intro l
  induction l with
  | nil =>
    intro k hk
    simp at hk
  | cons x xs ih =>
    intro k hk
    cases k with
    | zero =>
      cases xs with
      | nil => simp at hk
      | cons y ys => exact ⟨[], x, y, ys, rfl, rfl⟩
    | succ k =>
      have hk2 : k + 1 < xs.length := by
        simp only [List.length_cons] at hk
        omega
      obtain ⟨l₁, a, b, l₂, heq, hlen⟩ := ih k hk2
      exact ⟨x :: l₁, a, b, l₂, by rw [heq, List.cons_append],
        by simp [hlen]⟩

/-- `moveTopic` with direction `down` at an explicit split point performs
the adjacent swap. -/
theorem moveTopic_down_swap (l₁ : List Topic) (a b : Topic) (l₂ : List Topic) :
    moveTopic (l₁ ++ a :: b :: l₂) l₁.length MoveDirection.down =
      l₁ ++ b :: a :: l₂ := by
  unfold moveTopic
  rw [if_neg (by simp), if_pos ⟨rfl, by
    simp only [List.length_append, List.length_cons]
    omega⟩]
  exact listSwap_adj_down l₁ a b l₂

/-- `moveTopic` with direction `up` at an explicit split point performs the
adjacent swap. -/
theorem moveTopic_up_swap (l₁ : List Topic) (a b : Topic) (l₂ : List Topic) :
    moveTopic (l₁ ++ a :: b :: l₂) (l₁.length + 1) MoveDirection.up =
      l₁ ++ b :: a :: l₂ := by
  unfold moveTopic
  rw [if_pos ⟨rfl, Nat.succ_pos _⟩, Nat.add_sub_cancel]
  exact listSwap_adj_up l₁ a b l₂

/-- C7: `moveTopic` swaps the topic at `index` with its immediate neighbour
in the requested direction, is a no-op at the boundaries (`up` at index 0,
`down` at the last index), and for every valid index and direction the
result is a permutation of the input topics. -/
theorem c7_moveTopic_swap_noop_perm (l : List Topic) :
    moveTopic l 0 MoveDirection.up = l ∧
    moveTopic l (l.length - 1) MoveDirection.down = l ∧
    (∀ (l₁ l₂ : List Topic) (a b : Topic), l = l₁ ++ a :: b :: l₂ →
      moveTopic l l₁.length MoveDirection.down = l₁ ++ b :: a :: l₂ ∧
      moveTopic l (l₁.length + 1) MoveDirection.up = l₁ ++ b :: a :: l₂) ∧
    (∀ (index : Nat) (direction : MoveDirection), index < l.length →
      (moveTopic l index direction).Perm l) := by
  refine ⟨by simp [moveTopic], by simp [moveTopic], ?_, ?_⟩
  · intro l₁ l₂ a b heq
    subst heq
    exact ⟨moveTopic_down_swap l₁ a b l₂, moveTopic_up_swap l₁ a b l₂⟩
  · intro index direction hlen
    cases direction with
    | up =>
      by_cases h0 : index > 0
      · obtain ⟨l₁, a, b, l₂, heq, hk⟩ :=
          exists_adjacent_split l (index - 1) (by omega)
        have hidx : index = l₁.length + 1 := by omega
        rw [hidx, heq, moveTopic_up_swap]
        exact List.Perm.append_left l₁ (List.Perm.swap a b l₂)
      · have hz : index = 0 := by omega
        rw [hz]
        simp [moveTopic]
    | down =>
      by_cases hd : index < l.length - 1
      · obtain ⟨l₁, a, b, l₂, heq, hk⟩ :=
          exists_adjacent_split l index (by omega)
        rw [heq, ← hk, moveTopic_down_swap]
        exact List.Perm.append_left l₁ (List.Perm.swap a b l₂)
      · simp [moveTopic, hd]

/-- Witness for C7: swap the two sample topics downward, and permute by an
upward move at index 1. -/
theorem c7_witness :
    moveTopic [sampleTopic, emptyTopic] 0 MoveDirection.down =
      [emptyTopic, sampleTopic] ∧
    (moveTopic [sampleTopic, emptyTopic] 1 MoveDirection.up).Perm
      [sampleTopic, emptyTopic] := by
  have h := c7_moveTopic_swap_noop_perm [sampleTopic, emptyTopic]
  exact ⟨(h.2.2.1 [] [] sampleTopic emptyTopic rfl).1,
    h.2.2.2 1 MoveDirection.up (by decide)⟩

end ExamManager
